import Mathlib

/-!
Shallow embedding of the media-stream-player playback core.

Strings coming from the browser are modelled as `List Char`; JavaScript string
indices are `Int` so that the sentinel value `-1` returned by `indexOf` is
representable.  Every definition is translated from the TypeScript source:
the custom-element attribute bridge (`src/lib/MediaStreamPlayer.tsx` and the
variant in `src/unnamed/part_002`) and the WebSocket/RTSP playback component
`WsRtspVideo` (`src/unnamed/part_001`).
-/

/-! ### JavaScript string primitives -/

/-- Index of the first occurrence of `c`, as `String.prototype.indexOf` finds it. -/
def jsIndexOfAux (c : Char) : List Char → Option Nat
  | [] => none
  | x :: xs => if x = c then some 0 else (jsIndexOfAux c xs).map (fun n => n + 1)

/-- JavaScript `s.indexOf(c)`: position of the first occurrence of `c`, or `-1`. -/
def jsIndexOf (s : List Char) (c : Char) : Int :=
  match jsIndexOfAux c s with
  | some n => (n : Int)
  | none => -1

/-- Clamp a JavaScript string index into `[0, len]` as `substring` does. -/
def jsClamp (len : Nat) (i : Int) : Nat :=
  (min (max i 0) (len : Int)).toNat

/-- JavaScript `s.substring(a, b)`: both indices clamped into range and swapped
when given out of order. -/
def jsSubstring (s : List Char) (a b : Int) : List Char :=
  let x := jsClamp s.length a
  let y := jsClamp s.length b
  (s.take (max x y)).drop (min x y)

/-- JavaScript `s.substring(a)` (single-argument form). -/
def jsSubstringFrom (s : List Char) (a : Int) : List Char :=
  s.drop (jsClamp s.length a)

/-! ### Custom element: the autoplay attribute pair
(`src/lib/MediaStreamPlayer.tsx` lines 55-65, identical in `src/unnamed/part_002`
lines 62-72).  The attribute slot is `some v` when the element carries the
`autoplay` attribute with value `v`, `none` when absent.  The setter's argument
is `Option Bool`: `none` stands for the JavaScript value `undefined`. -/

/-- The `autoplay` setter: `value !== undefined` sets the empty attribute,
otherwise the attribute is removed. -/
def setAutoplay : Option Bool → Option (List Char) → Option (List Char)
  | some _, _ => some []
  | none, _ => none

/-- The `autoplay` getter: `this.hasAttribute('autoplay')`. -/
def getAutoplay (attr : Option (List Char)) : Bool :=
  attr.isSome

/-! ### Credential extraction from the hostname
(`src/lib/MediaStreamPlayer.tsx` lines 141-150, `PlayerComponent`; the same
statements appear in the `hostname` setter of `src/unnamed/part_002`). -/

/-- The triple of values `PlayerComponent` derives from the hostname attribute. -/
structure HostCredentials where
  hostname : List Char
  username : List Char
  password : List Char
deriving DecidableEq, Repr

/-- Hostname destructuring of `PlayerComponent`: when the hostname is truthy and
contains an `@`, the prefix before the first `@` is split at its first `:` into
username and password with JavaScript `substring` semantics, and the suffix
after the `@` replaces the hostname. -/
def parseHostname (hostname username password : List Char) : HostCredentials :=
  if hostname = [] then ⟨hostname, username, password⟩
  else
    let i := jsIndexOf hostname '@'
    if i = -1 then ⟨hostname, username, password⟩
    else
      let creds := jsSubstring hostname 0 i
      let j := jsIndexOf creds ':'
      ⟨jsSubstringFrom hostname (i + 1), jsSubstring creds 0 j,
        jsSubstringFrom creds (j + 1)⟩

/-! ### Supporting lemmas for the JavaScript string primitives -/

theorem jsIndexOfAux_eq_none {c : Char} {l : List Char} (h : c ∉ l) :
    jsIndexOfAux c l = none := by
  induction l with
  | nil => rfl
  | cons x xs ih =>
    have hx : ¬x = c := fun hh => h (hh ▸ List.mem_cons_self x xs)
    simp only [jsIndexOfAux, if_neg hx, ih (fun hm => h (List.mem_cons_of_mem _ hm)),
      Option.map_none']

theorem jsIndexOfAux_append {c : Char} {pre : List Char} (post : List Char)
    (h : c ∉ pre) : jsIndexOfAux c (pre ++ c :: post) = some pre.length := by
  induction pre with
  | nil => simp [jsIndexOfAux]
  | cons x xs ih =>
    have hx : ¬x = c := fun hh => h (hh ▸ List.mem_cons_self x xs)
    simp only [List.cons_append, jsIndexOfAux, if_neg hx, List.append_eq,
      ih (fun hm => h (List.mem_cons_of_mem _ hm)), Option.map_some', List.length_cons]

theorem jsIndexOf_not_mem {c : Char} {l : List Char} (h : c ∉ l) :
    jsIndexOf l c = -1 := by
  simp [jsIndexOf, jsIndexOfAux_eq_none h]

theorem jsIndexOf_append {c : Char} {pre : List Char} (post : List Char)
    (h : c ∉ pre) : jsIndexOf (pre ++ c :: post) c = (pre.length : Int) := by
  simp [jsIndexOf, jsIndexOfAux_append post h]

theorem jsClamp_natCast {len n : Nat} (h : n ≤ len) : jsClamp len (n : Nat) = n := by
  unfold jsClamp
  have h1 : max (n : Int) 0 = (n : Int) := max_eq_left (by positivity)
  have h2 : min (n : Int) (len : Int) = (n : Int) := min_eq_left (by exact_mod_cast h)
  rw [h1, h2, Int.toNat_natCast]

theorem jsClamp_neg_one (len : Nat) : jsClamp len (-1) = 0 := by
  unfold jsClamp
  have h1 : max (-1 : Int) 0 = 0 := by decide
  rw [h1]
  have h2 : min (0 : Int) (len : Int) = 0 := min_eq_left (by positivity)
  rw [h2]
  rfl

theorem jsSubstring_zero_nat {l : List Char} {n : Nat} (h : n ≤ l.length) :
    jsSubstring l 0 (n : Nat) = l.take n := by
  unfold jsSubstring
  have h0 : jsClamp l.length 0 = 0 := by
    have := @jsClamp_natCast l.length 0 (Nat.zero_le _)
    simpa using this
  rw [show ((0 : Int)) = ((0 : Nat) : Int) from rfl] at *
  simp only [h0, jsClamp_natCast h, Nat.zero_max, Nat.zero_min, List.drop_zero]

theorem jsSubstring_zero_neg_one (l : List Char) : jsSubstring l 0 (-1) = [] := by
  unfold jsSubstring
  have h0 : jsClamp l.length 0 = 0 := by
    have := @jsClamp_natCast l.length 0 (Nat.zero_le _)
    simpa using this
  simp [h0, jsClamp_neg_one]

theorem jsSubstringFrom_nat {l : List Char} {n : Nat} (h : n ≤ l.length) :
    jsSubstringFrom l (n : Nat) = l.drop n := by
  unfold jsSubstringFrom
  rw [jsClamp_natCast h]

theorem jsSubstringFrom_zero (l : List Char) : jsSubstringFrom l 0 = l := by
  have := @jsSubstringFrom_nat l 0 (Nat.zero_le _)
  simpa using this

theorem parseHostname_unfold (pre post u0 p0 : List Char) (h : '@' ∉ pre) :
    parseHostname (pre ++ '@' :: post) u0 p0 =
      ⟨post, jsSubstring pre 0 (jsIndexOf pre ':'),
        jsSubstringFrom pre (jsIndexOf pre ':' + 1)⟩ := by
  have h1 : ¬(pre ++ '@' :: post = []) := by simp
  have hidx : jsIndexOf (pre ++ '@' :: post) '@' = (pre.length : Int) :=
    jsIndexOf_append post h
  have h2 : ¬((pre.length : Int) = -1) := by omega
  have hcreds : jsSubstring (pre ++ '@' :: post) 0 (pre.length : Int) = pre := by
    rw [jsSubstring_zero_nat (by simp [List.length_append]), List.take_left]
  have hhost : jsSubstringFrom (pre ++ '@' :: post) ((pre.length : Int) + 1) = post := by
    have hc : ((pre.length : Int) + 1) = ((pre.length + 1 : Nat) : Int) := by push_cast; ring
    rw [hc, jsSubstringFrom_nat (by simp [List.length_append])]
    rw [show pre ++ '@' :: post = (pre ++ ['@']) ++ post by simp]
    exact List.drop_left' (by simp)
  simp only [parseHostname, if_neg h1, hidx, if_neg h2, hcreds, hhost]

/-- C10: for a hostname of the form `pre ++ '@' :: post` where `pre` has no `@`
(so the `@` shown is the first one), the component derives the effective
hostname `post`; the prefix is split at its first `:` into username and
password, and when the prefix has no `:` at all the username becomes empty and
the password becomes the whole prefix. -/
theorem parseHostname_splits_credentials (pre post u0 p0 : List Char)
    (h : '@' ∉ pre) :
    (parseHostname (pre ++ '@' :: post) u0 p0).hostname = post ∧
    (':' ∉ pre →
      (parseHostname (pre ++ '@' :: post) u0 p0).username = [] ∧
      (parseHostname (pre ++ '@' :: post) u0 p0).password = pre) ∧
    (∀ u p : List Char, ':' ∉ u → pre = u ++ ':' :: p →
      (parseHostname (pre ++ '@' :: post) u0 p0).username = u ∧
      (parseHostname (pre ++ '@' :: post) u0 p0).password = p) := by
  rw [parseHostname_unfold pre post u0 p0 h]
  refine ⟨rfl, ?_, ?_⟩
  · intro hc
    rw [jsIndexOf_not_mem hc]
    refine ⟨jsSubstring_zero_neg_one pre, ?_⟩
    rw [show (-1 : Int) + 1 = 0 by decide, jsSubstringFrom_zero]
  · intro u p hu hpre
    subst hpre
    rw [jsIndexOf_append p hu]
    constructor
    · rw [jsSubstring_zero_nat (by simp [List.length_append]), List.take_left]
    · have hc : ((u.length : Int) + 1) = ((u.length + 1 : Nat) : Int) := by push_cast; ring
      rw [hc, jsSubstringFrom_nat (by simp [List.length_append])]
      rw [show u ++ ':' :: p = (u ++ [':']) ++ p by simp]
      exact List.drop_left' (by simp)

/-- Witness for C10 at the concrete hostname `u:p@c`. -/
theorem parseHostname_splits_credentials_witness :
    (parseHostname (['u', ':', 'p'] ++ '@' :: ['c']) [] []).hostname = ['c'] ∧
    (parseHostname (['u', ':', 'p'] ++ '@' :: ['c']) [] []).username = ['u'] ∧
    (parseHostname (['u', ':', 'p'] ++ '@' :: ['c']) [] []).password = ['p'] := by
  have h := parseHostname_splits_credentials ['u', ':', 'p'] ['c'] [] [] (by decide)
  exact ⟨h.1, (h.2.2 ['u'] ['p'] (by decide) rfl).1, (h.2.2 ['u'] ['p'] (by decide) rfl).2⟩

/-- C9: the autoplay setter/getter pair does not round-trip on `false`.  Any
value other than `undefined` (modelled `none`), including `false`, installs the
empty `autoplay` attribute, after which the getter reads `true`; only
assigning `undefined` removes the attribute and makes the getter read `false`. -/
theorem autoplay_no_false_roundtrip (v : Option Bool) (attr : Option (List Char))
    (h : v ≠ none) :
    getAutoplay (setAutoplay v attr) = true ∧
    getAutoplay (setAutoplay none attr) = false := by
  refine ⟨?_, rfl⟩
  match v with
  | some b => rfl
  | none => exact absurd rfl h

/-- Witness for C9: assigning `false` still makes the getter return `true`. -/
theorem autoplay_no_false_roundtrip_witness :
    getAutoplay (setAutoplay (some false) (some [])) = true ∧
    getAutoplay (setAutoplay none (some [])) = false :=
  autoplay_no_false_roundtrip (some false) (some []) (by decide)

/-! ### WsRtspVideo (`src/unnamed/part_001`)

The component state consists of the video element reference, the `canplay` and
`playing` event flags, the current pipeline (identified by a number, since the
pipeline object itself is opaque), the `fetching` flag, and the stall-detector
state `playTime`/`frozenSecs`.  Clock values are modelled as naturals; the only
operation the source performs on them is an equality test. -/

/-- The video element as seen by the component: its playback clock and its
natural dimensions. -/
structure VideoEl where
  currentTime : Nat
  videoWidth : Nat
  videoHeight : Nat
deriving DecidableEq, Repr

/-- One tick of the 1-second stall-detection interval (part_001 lines 118-138):
a missing video element or `playing = false` leaves everything untouched;
otherwise the freeze counter is incremented exactly when the clock did not move
since the previous tick, and the clock value is recorded.  The counter is never
reset here.  Returns the new `(playTime, frozenSecs)` pair. -/
def stallTick (videoEl : Option VideoEl) (playing : Bool)
    (playTime frozenSecs : Nat) : Nat × Nat :=
  match videoEl with
  | none => (playTime, frozenSecs)
  | some el =>
    if playing = false then (playTime, frozenSecs)
    else if el.currentTime = playTime then (el.currentTime, frozenSecs + 1)
    else (el.currentTime, frozenSecs)

/-- Run the stall detector over a clock sequence with the video element present
and `playing` true, applying the frozen-counter effect (part_001 lines 169-187)
after each tick: on reaching the threshold 3 the feed is restarted and the
counter reset to 0.  Returns `(playTime, frozenSecs, recoveries)`. -/
def runStallTicks : List Nat → Nat → Nat → Nat → Nat × Nat × Nat
  | [], playTime, frozenSecs, recoveries => (playTime, frozenSecs, recoveries)
  | t :: ts, playTime, frozenSecs, recoveries =>
    let next := stallTick (some ⟨t, 0, 0⟩) true playTime frozenSecs
    if next.2 < 3 then runStallTicks ts next.1 next.2 recoveries
    else runStallTicks ts next.1 0 (recoveries + 1)

/-- C1 counterexample: with the clock advancing from 5 to 6 while the counter
stands at 2, the counter is not reset to 0 as claimed; and over the sampled
sequence `[5, 5, 5, 6]` recovery does not trigger exactly once — it never
triggers, the counter only reaching 2. -/
theorem stallTick_claim_fails :
    (stallTick (some ⟨6, 0, 0⟩) true 5 2).2 ≠ 0 ∧
    (runStallTicks [5, 5, 5, 6] 0 0 0).2.2 ≠ 1 := by
  decide

/-- C1 amended: on a tick with a video element present and `playing` true, the
freeze counter is incremented by one when the clock equals the previous tick's
value and is left unchanged (not reset) otherwise, the clock value being
recorded either way; consequently over the sampled sequence `[5, 5, 5, 6]` the
counter only reaches 2 and recovery never triggers. -/
theorem stallTick_increment_no_reset (el : VideoEl) (playTime frozenSecs : Nat) :
    stallTick (some el) true playTime frozenSecs =
      (el.currentTime,
        if el.currentTime = playTime then frozenSecs + 1 else frozenSecs) ∧
    (runStallTicks [5, 5, 5, 6] 0 0 0).2.1 = 2 ∧
    (runStallTicks [5, 5, 5, 6] 0 0 0).2.2 = 0 := by
  refine ⟨?_, by decide, by decide⟩
  by_cases hc : el.currentTime = playTime <;> simp [stallTick, hc]

/-- State read and written by the frozen-counter recovery effect
(part_001 lines 169-187). -/
structure RecoverState where
  videoEl : Option VideoEl
  pipeline : Option Nat
  fetching : Bool
  frozenSecs : Nat
  nextId : Nat
deriving DecidableEq, Repr

/-- Externally visible operations the recovery effect performs. -/
inductive RecoverAction where
  | closePipeline (id : Nat)
  | newPipeline (id : Nat) (ws rtsp : List Char) (el : VideoEl)
deriving DecidableEq, Repr

/-- The recovery effect (part_001 lines 169-187): a no-op below the threshold 3
or without a video element; otherwise it closes the current pipeline when one
exists, constructs a fresh pipeline against the same `ws`/`rtsp` target and the
same video element, installs it with `fetching := false`, and resets the
counter to 0. -/
def recoveryEffect (ws rtsp : List Char) (s : RecoverState) :
    RecoverState × List RecoverAction :=
  match s.videoEl with
  | none => (s, [])
  | some el =>
    if s.frozenSecs < 3 then (s, [])
    else
      let closeActs := match s.pipeline with
        | some p => [RecoverAction.closePipeline p]
        | none => []
      ({ s with
          frozenSecs := 0
          pipeline := some s.nextId
          fetching := false
          nextId := s.nextId + 1 },
        closeActs ++ [RecoverAction.newPipeline s.nextId ws rtsp el])

/-- C2: when the freeze counter reaches the threshold 3 with a video element
present, recovery runs exactly once: the current pipeline is closed, then
exactly one fresh pipeline is constructed against the same `ws`/`rtsp` target
and the same video element and installed with `fetching := false`, and the
counter is reset to 0 — after which an immediate re-run of the effect performs
no further action. -/
theorem recoveryEffect_runs_once (ws rtsp : List Char) (el : VideoEl)
    (p : Nat) (b : Bool) (n : Nat) :
    recoveryEffect ws rtsp ⟨some el, some p, b, 3, n⟩ =
      (⟨some el, some n, false, 0, n + 1⟩,
        [RecoverAction.closePipeline p, RecoverAction.newPipeline n ws rtsp el]) ∧
    recoveryEffect ws rtsp ⟨some el, some n, false, 0, n + 1⟩ =
      (⟨some el, some n, false, 0, n + 1⟩, []) := by
  constructor <;> rfl

/-- Actions the play/pause reconciliation effect can request from the video
element or emit upward. -/
inductive PlayerAction where
  | requestRender
  | requestPause
  | emitGeometry (width height : Nat)
  | logError (msg : List Char)
deriving DecidableEq, Repr

/-- The play/pause reconciliation effect (part_001 lines 91-115): with no video
element it does nothing; otherwise `play && canplay && !playing` requests the
element to play, `!play && playing` pauses it and clears the `playing` flag,
`play && playing` reports the element's current dimensions upward, and any
other combination does nothing.  Returns the requested action, if any, and the
updated `playing` flag. -/
def reconcileEffect (play canplay playing : Bool) (videoEl : Option VideoEl) :
    Option PlayerAction × Bool :=
  match videoEl with
  | none => (none, playing)
  | some el =>
    if play && canplay && !playing then (some PlayerAction.requestRender, playing)
    else if !play && playing then (some PlayerAction.requestPause, false)
    else if play && playing then
      (some (PlayerAction.emitGeometry el.videoWidth el.videoHeight), playing)
    else (none, playing)

/-- C3: with a video element present, each reconciliation pass takes exactly one
of four mutually exclusive actions — begin rendering when
`play && canplay && !playing`, pause and clear `playing` when
`!play && playing`, emit the element's current width and height when
`play && playing`, and otherwise do nothing. -/
theorem reconcileEffect_cases (play canplay playing : Bool) (el : VideoEl) :
    (play = true ∧ canplay = true ∧ playing = false ∧
      reconcileEffect play canplay playing (some el) =
        (some PlayerAction.requestRender, playing)) ∨
    (play = false ∧ playing = true ∧
      reconcileEffect play canplay playing (some el) =
        (some PlayerAction.requestPause, false)) ∨
    (play = true ∧ playing = true ∧
      reconcileEffect play canplay playing (some el) =
        (some (PlayerAction.emitGeometry el.videoWidth el.videoHeight), playing)) ∨
    (¬(play = true ∧ canplay = true ∧ playing = false) ∧
      ¬(play = false ∧ playing = true) ∧ ¬(play = true ∧ playing = true) ∧
      reconcileEffect play canplay playing (some el) = (none, playing)) := by
  cases play <;> cases canplay <;> cases playing <;> simp [reconcileEffect]

/-- React re-runs an effect exactly when its dependency tuple changed. -/
def depsChanged (a b : Bool × Bool × Bool) : Bool :=
  decide (a ≠ b)

/-- The scenario of a rejected render-start request: reconciliation with
`play = true`, `canplay = true`, `playing = false` issues the render request;
the element rejects it; the catch handler (part_001 lines 101-103) only logs
the message; the effect re-runs only if its dependencies changed.  Returns the
final `(play, canplay, playing)` triple and every action in order. -/
def renderRejectionRun (el : VideoEl) (msg : List Char) :
    (Bool × Bool × Bool) × List PlayerAction :=
  let s0 := (true, true, false)
  let pass1 := reconcileEffect true true false (some el)
  let s1 := (true, true, pass1.2)
  let logActs := [PlayerAction.logError msg]
  let pass2 := if depsChanged s0 s1 then reconcileEffect true true pass1.2 (some el)
    else (none, pass1.2)
  ((true, true, pass2.2), pass1.1.toList ++ logActs ++ pass2.1.toList)

/-- C7: a rejected render-start request is only logged — the
`(play, canplay, playing)` triple is exactly what it was before the request,
the only actions are the single render request and the log entry, and since
the effect's dependencies are unchanged no further render request is issued. -/
theorem renderRejection_logged_only (el : VideoEl) (msg : List Char) :
    renderRejectionRun el msg =
      ((true, true, false),
        [PlayerAction.requestRender, PlayerAction.logError msg]) := by
  rfl

/-- Actions performed by the continuation registered on `pipeline.ready`. -/
inductive SdpAction where
  | setOnSdp (id : Nat)
  | rtspPlay (id : Nat)
deriving DecidableEq, Repr

/-- The continuation registered on `pipeline.ready` (part_001 lines 195-202).
It captures the pipeline it was registered for (id `captured`) and, when the
promise resolves, wires the sdp callback and issues `rtsp.play()` on that
captured pipeline unconditionally; the pipeline that is current at firing time
(`currentAtFiring`) is never consulted by the source. -/
def readyContinuation (captured : Nat) (currentAtFiring : Option Nat) :
    List SdpAction :=
  [SdpAction.setOnSdp captured, SdpAction.rtspPlay captured]

/-- C5 evaluated at the failing input: a continuation registered for pipeline 0
fires after the session has been replaced by pipeline 1 and still wires the
sdp callback and issues the play request on the superseded pipeline 0, instead
of performing no action. -/
theorem readyContinuation_acts_when_stale :
    readyContinuation 0 (some 1) ≠ [] ∧
    readyContinuation 0 (some 1) = [SdpAction.setOnSdp 0, SdpAction.rtspPlay 0] := by
  decide

/-- Component state touched by the ws/rtsp effect cleanup. -/
structure TeardownState where
  pipeline : Option Nat
  fetching : Bool
  canplay : Bool
  playing : Bool
  videoSrc : List Char
deriving DecidableEq, Repr

/-- Operations the cleanup performs on external resources. -/
inductive TeardownAction where
  | closePipeline (id : Nat)
  | clearVideoSrc
deriving DecidableEq, Repr

/-- The ws/rtsp effect cleanup (part_001 lines 157-165), the closure having
captured the pipeline `p` it created: close the pipeline, clear the video
element's source, then reset the pipeline reference, the `fetching` flag and
the `canplay`/`playing` flags. -/
def teardownSession (p : Nat) (s : TeardownState) :
    TeardownState × List TeardownAction :=
  (⟨none, false, false, false, []⟩,
    [TeardownAction.closePipeline p, TeardownAction.clearVideoSrc])

/-- C6: teardown closes the pipeline before clearing the surface source, leaves
every flag (pipeline reference, fetching, canplay, playing) cleared, and is
idempotent — run from any state, including one left by a partially failed
construction, and run twice, it yields the same cleared state and the same
actions without error. -/
theorem teardownSession_ordered_idempotent (p : Nat) (s : TeardownState) :
    (teardownSession p s).2 =
      [TeardownAction.closePipeline p, TeardownAction.clearVideoSrc] ∧
    (teardownSession p s).1 = ⟨none, false, false, false, []⟩ ∧
    teardownSession p (teardownSession p s).1 = teardownSession p s := by
  exact ⟨rfl, rfl, rfl⟩

/-- Component state read by the fetch-initiation effect (part_001 lines
193-206).  Pipelines are numbered in order of construction, so a replacement
session never reuses an earlier session's identity. -/
structure FetchState where
  play : Bool
  pipeline : Option Nat
  fetching : Bool
  nextId : Nat
deriving DecidableEq, Repr

/-- External stimuli relevant to fetch initiation: the desired play flag
changing, a new pipeline being installed (by the ws/rtsp effect or by stall
recovery, both of which reset `fetching` to false), and the pipeline being
cleared by teardown (which also resets `fetching`). -/
inductive FetchEvent where
  | setPlay (b : Bool)
  | installPipeline
  | clearPipeline
deriving DecidableEq, Repr

/-- The fetch-initiation effect (part_001 lines 193-206): when `play` is true,
a pipeline exists and `fetching` is false, it registers the ready continuation
(which wires the sdp callback and issues the rtsp play request) for the
current pipeline and sets `fetching`.  Returns the state and the identities of
the sessions for which fetch initiation was issued. -/
def fetchEffect (s : FetchState) : FetchState × List Nat :=
  match s.pipeline with
  | some p =>
    if s.play && !s.fetching then ({ s with fetching := true }, [p])
    else (s, [])
  | none => (s, [])

/-- State change performed by each external event, before effects re-run. -/
def applyFetchEvent (s : FetchState) : FetchEvent → FetchState
  | FetchEvent.setPlay b => { s with play := b }
  | FetchEvent.installPipeline =>
    { s with
        pipeline := some s.nextId
        fetching := false
        nextId := s.nextId + 1 }
  | FetchEvent.clearPipeline =>
    { s with
        pipeline := none
        fetching := false }

/-- One event followed by the fetch-initiation effect run. -/
def fetchStep (s : FetchState) (e : FetchEvent) : FetchState × List Nat :=
  fetchEffect (applyFetchEvent s e)

/-- Run a sequence of events, collecting every fetch initiation in order. -/
def fetchRun (s : FetchState) : List FetchEvent → FetchState × List Nat
  | [] => (s, [])
  | e :: es =>
    ((fetchRun (fetchStep s e).1 es).1,
      (fetchStep s e).2 ++ (fetchRun (fetchStep s e).1 es).2)

/-- The component's initial state: not playing, no pipeline, not fetching. -/
def fetchInitState : FetchState := ⟨false, none, false, 0⟩

/-- Invariant tying the fetch log to the state: no session is fetched twice,
every fetched or installed session id is below the freshness counter, and the
current session is unfetched whenever its `fetching` flag is down. -/
def FetchInv (s : FetchState) (out : List Nat) : Prop :=
  out.Nodup ∧ (∀ q ∈ out, q < s.nextId) ∧
  (∀ q, s.pipeline = some q → q < s.nextId) ∧
  (∀ q, s.pipeline = some q → s.fetching = false → q ∉ out)

theorem fetchEffect_inv (s : FetchState) (out : List Nat) (h : FetchInv s out) :
    FetchInv (fetchEffect s).1 (out ++ (fetchEffect s).2) := by
  obtain ⟨hnd, hlt, hplt, hfresh⟩ := h
  cases hps : s.pipeline with
  | none =>
    have heff : fetchEffect s = (s, []) := by simp [fetchEffect, hps]
    rw [heff]
    exact ⟨by simpa using hnd, by simpa using hlt, hplt, by simpa using hfresh⟩
  | some p =>
    by_cases hc : (s.play && !s.fetching) = true
    · have hf : s.fetching = false := by
        rcases Bool.and_eq_true_iff.mp hc with ⟨-, h2⟩
        simpa using h2
      have hnm : p ∉ out := hfresh p hps hf
      have heff : fetchEffect s = ({ s with fetching := true }, [p]) := by
        simp [fetchEffect, hps, hc]
      rw [heff]
      refine ⟨?_, ?_, ?_, ?_⟩
      · simp only [List.nodup_append, List.nodup_singleton, true_and]
        exact ⟨hnd, fun q hq hqp => hnm ((List.mem_singleton.mp hqp) ▸ hq)⟩
      · intro q hq
        rcases List.mem_append.mp hq with hq | hq
        · exact hlt q hq
        · exact (List.mem_singleton.mp hq) ▸ hplt p hps
      · intro q hq
        exact hplt q hq
      · intro q hq hfet
        simp at hfet
    · have heff : fetchEffect s = (s, []) := by
        simp only [fetchEffect, hps]
        rw [if_neg hc]
      rw [heff]
      exact ⟨by simpa using hnd, by simpa using hlt, hplt, by simpa using hfresh⟩

theorem applyFetchEvent_inv (s : FetchState) (e : FetchEvent) (out : List Nat)
    (h : FetchInv s out) : FetchInv (applyFetchEvent s e) out := by
  obtain ⟨hnd, hlt, hplt, hfresh⟩ := h
  cases e with
  | setPlay b => exact ⟨hnd, hlt, hplt, hfresh⟩
  | installPipeline =>
    refine ⟨hnd, fun q hq => Nat.lt_succ_of_lt (hlt q hq), ?_, ?_⟩
    · intro q hq
      simp only [applyFetchEvent, Option.some.injEq] at hq
      simp only [applyFetchEvent]
      omega
    · intro q hq hf hmem
      simp only [applyFetchEvent, Option.some.injEq] at hq
      exact absurd (hlt q hmem) (by omega)
  | clearPipeline =>
    refine ⟨hnd, hlt, ?_, ?_⟩
    · intro q hq
      simp [applyFetchEvent] at hq
    · intro q hq
      simp [applyFetchEvent] at hq

theorem fetchStep_inv (s : FetchState) (e : FetchEvent) (out : List Nat)
    (h : FetchInv s out) : FetchInv (fetchStep s e).1 (out ++ (fetchStep s e).2) :=
  fetchEffect_inv (applyFetchEvent s e) out (applyFetchEvent_inv s e out h)

theorem fetchRun_inv (evts : List FetchEvent) (s : FetchState) (out : List Nat)
    (h : FetchInv s out) :
    FetchInv (fetchRun s evts).1 (out ++ (fetchRun s evts).2) := by
  induction evts generalizing s out with
  | nil => simpa [fetchRun] using h
  | cons e es ih =>
    simp only [fetchRun]
    have h2 := ih (fetchStep s e).1 (out ++ (fetchStep s e).2) (fetchStep_inv s e out h)
    simpa [List.append_assoc] using h2

/-- C4: over every sequence of play toggles, pipeline installations and
teardowns, fetch initiation — registering the ready continuation and issuing
the pipeline's rtsp play request, guarded by the `fetching` flag — happens at
most once per session, even if `play` toggles true, false, true before the
pipeline becomes ready. -/
theorem fetchInitiation_at_most_once (evts : List FetchEvent) (q : Nat) :
    ((fetchRun fetchInitState evts).2).count q ≤ 1 := by
  have h0 : FetchInv fetchInitState [] :=
    ⟨List.nodup_nil, by simp, by simp [fetchInitState], by simp [fetchInitState]⟩
  have h := fetchRun_inv evts fetchInitState [] h0
  exact List.nodup_iff_count_le_one.mp (by simpa using h.1) q

/-- Pipeline lifecycle state of the component (part_001 lines 140-187), with
the video element taken as present throughout.  `effectCaptured` is the
pipeline captured by the pending ws/rtsp effect cleanup closure — the pipeline
that effect itself created — while `pipeline` is the component state, which
stall recovery can repoint at a newer pipeline without updating the pending
cleanup closure.  `closed` records every pipeline on which `close()` has been
called; `nextId` numbers pipelines in construction order. -/
structure LifecycleState where
  target : Option (List Char × List Char)
  effectCaptured : Option Nat
  pipeline : Option Nat
  closed : List Nat
  nextId : Nat
deriving DecidableEq, Repr

/-- The externally driven transitions: the ws/rtsp props changing, and the
stall-recovery effect firing (the freeze counter having reached 3). -/
inductive LifecycleEvent where
  | setTarget (t : Option (List Char × List Char))
  | stallRecover
deriving DecidableEq, Repr

/-- The ws/rtsp effect cleanup (part_001 lines 157-165) as it affects the
pipeline lifecycle: it closes the pipeline its closure captured — not
necessarily the current one — and clears the pipeline state.  With no pending
cleanup (the previous effect run created no pipeline) it is a no-op. -/
def lifecycleCleanup (s : LifecycleState) : LifecycleState :=
  match s.effectCaptured with
  | none => s
  | some p =>
    { s with
        closed := p :: s.closed
        effectCaptured := none
        pipeline := none }

/-- One lifecycle transition.  A changed target first runs the pending cleanup,
then — for a non-empty target — constructs a fresh pipeline, captured by the
new cleanup closure (part_001 lines 140-167).  Stall recovery (lines 169-187)
closes the current pipeline state and installs a fresh pipeline in its place,
leaving the pending cleanup closure untouched. -/
def lifecycleStep (s : LifecycleState) : LifecycleEvent → LifecycleState
  | LifecycleEvent.setTarget t =>
    if t = s.target then s
    else
      let s1 := lifecycleCleanup s
      match t with
      | some _ =>
        { s1 with
            target := t
            pipeline := some s1.nextId
            effectCaptured := some s1.nextId
            nextId := s1.nextId + 1 }
      | none => { s1 with target := none }
  | LifecycleEvent.stallRecover =>
    let closedNew := match s.pipeline with
      | some p => p :: s.closed
      | none => s.closed
    { s with
        closed := closedNew
        pipeline := some s.nextId
        nextId := s.nextId + 1 }

/-- Run a sequence of lifecycle events. -/
def lifecycleRun (s : LifecycleState) : List LifecycleEvent → LifecycleState
  | [] => s
  | e :: es => lifecycleRun (lifecycleStep s e) es

/-- The freshly mounted component: no target, no pipeline, nothing closed. -/
def lifecycleInit : LifecycleState := ⟨none, none, none, [], 0⟩

/-- Number of constructed pipelines on which `close()` has never been called. -/
def liveCount (s : LifecycleState) : Nat :=
  ((List.range s.nextId).filter (fun i => decide (i ∉ s.closed))).length

/-- C8 evaluated at the failing trace: set a target (pipeline 0 is built),
recover from a stall (pipeline 0 closed, pipeline 1 built), then change the
target — the pending cleanup closes the already-closed pipeline 0, not the
current pipeline 1, before pipeline 2 is built, so pipelines 1 and 2 are both
live at once, violating the at-most-one-live-pipeline invariant. -/
theorem lifecycle_two_live_pipelines :
    liveCount (lifecycleRun lifecycleInit
      [LifecycleEvent.setTarget (some (['a'], ['b'])),
        LifecycleEvent.stallRecover,
        LifecycleEvent.setTarget (some (['c'], ['b']))]) = 2 ∧
    (lifecycleRun lifecycleInit
      [LifecycleEvent.setTarget (some (['a'], ['b'])),
        LifecycleEvent.stallRecover,
        LifecycleEvent.setTarget (some (['c'], ['b']))]).closed = [0, 0] := by
  decide
